import Mathlib

/-!
Shallow embedding of the webb bridge relayer's cross-chain proposal
pipeline, translated from `src/events_watcher/bridge_watcher.rs` and
`src/events_watcher/anchor_oracle_watcher.rs`, with theorems checking the
natural-language specification against it.

Bytes are lists of naturals; machine integers are naturals with explicit
reductions modulo `2 ^ 32` where the source truncates.  The keccak256 hash
comes from an external library (`ethers::utils::keccak256`), so operations
that hash are parameterised by the hash function.
-/

namespace Relayer

/-- Byte strings are lists of naturals (each byte below 256). -/
abbrev Bytes := List Nat

/-- Big-endian encoding of a `u32`, as in `u32::to_be_bytes`. -/
def be32 (n : Nat) : Bytes :=
  [n / 2 ^ 24 % 256, n / 2 ^ 16 % 256, n / 2 ^ 8 % 256, n % 256]

/-- Decoding of four big-endian bytes, as in `u32::from_be_bytes`. -/
def fromBe32 : Bytes → Nat
  | [a, b, c, d] => a * 2 ^ 24 + b * 2 ^ 16 + c * 2 ^ 8 + d
  | _ => 0

/-- Embedding of the `ProposalStatus` enum of `bridge_watcher.rs`. -/
inductive ProposalStatus
  | Inactive
  | Active
  | Passed
  | Executed
  | Cancelled
  | Unknown
deriving DecidableEq

/-- Discriminant values of `ProposalStatus` (`repr(u8)`); the derived Rust
`Ord` compares these values, with `Unknown = u8::MAX`. -/
def ProposalStatus.u8 : ProposalStatus → Nat
  | .Inactive => 0
  | .Active => 1
  | .Passed => 2
  | .Executed => 3
  | .Cancelled => 4
  | .Unknown => 255

/-- Embedding of `impl From<u8> for ProposalStatus`: bytes 0 to 4 map to the
named statuses and every other byte maps to `Unknown`. -/
def proposalStatusOfU8 : Nat → ProposalStatus
  | 0 => .Inactive
  | 1 => .Active
  | 2 => .Passed
  | 3 => .Executed
  | 4 => .Cancelled
  | _ => .Unknown

/-- Embedding of the `ProposalData` struct of `bridge_watcher.rs`. -/
structure ProposalData where
  anchor_address : Bytes
  anchor_handler_address : Bytes
  src_chain_id : Nat
  leaf_index : Nat
  function_sig : Bytes
  merkle_root : Bytes
deriving DecidableEq

/-- Embedding of the `ProposalEntity` struct of `bridge_watcher.rs`. -/
structure ProposalEntity where
  src_chain_id : Nat
  nonce : Nat
  data : Bytes
  data_hash : Bytes
  resource_id : Bytes
deriving DecidableEq

/-- Modelled from the spec: the `ProposalHeader` struct of
`src/events_watcher` (its module file is not under `src/`); the spec fixes
the 40-byte serialised layout `resource_id[32] then function_sig[4] then
nonce[4] big-endian`, the `chain_id` field is not serialised. -/
structure ProposalHeader where
  resource_id : Bytes
  function_sig : Bytes
  chain_id : Nat
  nonce : Nat
deriving DecidableEq

/-- Modelled from the spec: `ProposalHeader::encoded_to` (not under `src/`):
the 40-byte header is `resource_id` then `function_sig` then the nonce as
4 big-endian bytes. -/
def encodeProposalHeader (h : ProposalHeader) : Bytes :=
  h.resource_id ++ h.function_sig ++ be32 h.nonce

/-- Embedding of `encode_resource_id` from `bridge_watcher.rs`: eight zero
bytes, the 20-byte handler address, then `chain_id.as_u32()` as 4 big-endian
bytes. -/
def encode_resource_id (anchor_handler_address : Bytes) (chain_id : Nat) :
    Bytes :=
  List.replicate 8 0 ++ anchor_handler_address ++ be32 (chain_id % 2 ^ 32)

/-- Embedding of `decode_resource_id` from `bridge_watcher.rs`: the address
is bytes 8 to 27 and the chain id the last 4 bytes, big-endian. -/
def decode_resource_id (r_id : Bytes) : Bytes × Nat :=
  ((r_id.drop 8).take 20, fromBe32 ((r_id.drop 28).take 4))

/-- Modelled from the spec: the three-argument `encode_resource_id` of
`src/events_watcher` used by `anchor_oracle_watcher.rs` (its module file is
not under `src/`); it additionally packs the 2-byte chain type before the
big-endian chain id, padding with zeros on the left to 32 bytes. -/
def encodeTypedResourceId (address : Bytes) (chain_type : Bytes)
    (chain_id : Nat) : Bytes :=
  List.replicate 6 0 ++ address ++ chain_type ++ be32 (chain_id % 2 ^ 32)

/-- Outbound transactions built by the watcher, mirroring the two contract
calls `vote_proposal` and `execute_proposal` (the latter gated by a minimum
block number via `.block(current + 1)`). -/
inductive Tx
  | voteProposal (src_chain_id nonce : Nat) (resource_id data_hash : Bytes)
  | executeProposal (src_chain_id nonce : Nat) (data resource_id : Bytes)
      (min_block : Nat)
deriving DecidableEq

/-- Queue keys, mirroring `SledQueueKey::from_evm_with_custom_key`:
a chain id together with a 64-byte custom key. -/
abbrev QueueKey := Nat × Bytes

/-- ASCII bytes of the 32-byte label of vote queue keys,
`vote_for_proposal_tx_key_prefix_`, from `make_vote_proposal_key`. -/
def voteLabel : Bytes :=
  [118, 111, 116, 101, 95, 102, 111, 114, 95, 112, 114, 111, 112, 111, 115,
   97, 108, 95, 116, 120, 95, 107, 101, 121, 95, 112, 114, 101, 102, 105,
   120, 95]

/-- ASCII bytes of the 32-byte label of execute queue keys,
`execute_proposal_txx_key_prefix_` (double x preserved), from
`make_execute_proposal_key`. -/
def executeLabel : Bytes :=
  [101, 120, 101, 99, 117, 116, 101, 95, 112, 114, 111, 112, 111, 115, 97,
   108, 95, 116, 120, 120, 95, 107, 101, 121, 95, 112, 114, 101, 102, 105,
   120, 95]

/-- Embedding of `make_vote_proposal_key`: the vote label followed by the
32-byte data hash. -/
def voteKeyBytes (data_hash : Bytes) : Bytes :=
  voteLabel ++ data_hash

/-- Embedding of `make_execute_proposal_key`: the execute label followed by
the 32-byte data hash. -/
def executeKeyBytes (data_hash : Bytes) : Bytes :=
  executeLabel ++ data_hash

/-- Modelled from the spec: the relevant slice of the sled `Store` (its
implementation `store/sled.rs` is not under `src/`): the proposals table is
a map from data hash to entity, and the outbound queue maps queue keys to
serialised transactions. -/
structure Store where
  proposals : List (Bytes × ProposalEntity)
  queue : List (QueueKey × Tx)
deriving DecidableEq

/-- Lookup of a proposal entity by its data hash. -/
def lookupProposal : List (Bytes × ProposalEntity) → Bytes →
    Option ProposalEntity
  | [], _ => none
  | p :: ps, h => if p.1 = h then some p.2 else lookupProposal ps h

/-- Removal of the entry at a data hash from the proposals table. -/
def eraseProposal (ps : List (Bytes × ProposalEntity)) (h : Bytes) :
    List (Bytes × ProposalEntity) :=
  ps.filter (fun p => decide (p.1 ≠ h))

/-- Modelled from the spec: `insert_proposal` stores the entity under its
data hash, replacing any previous entry at that key. -/
def insertProposalEntry (ps : List (Bytes × ProposalEntity))
    (e : ProposalEntity) : List (Bytes × ProposalEntity) :=
  (e.data_hash, e) :: eraseProposal ps e.data_hash

/-- Embedding of `QueueStore::has_item`: whether the queue holds an item at
the key. -/
def hasItem (q : List (QueueKey × Tx)) (k : QueueKey) : Bool :=
  q.any (fun p => decide (p.1 = k))

/-- Modelled from the spec: `enqueue_item` appends at the key and is a
no-op if the key already exists. -/
def enqueueItem (q : List (QueueKey × Tx)) (k : QueueKey) (tx : Tx) :
    List (QueueKey × Tx) :=
  if hasItem q k then q else q ++ [(k, tx)]

/-- Modelled from the spec: `remove_item` removes the entry at the key. -/
def removeItem (q : List (QueueKey × Tx)) (k : QueueKey) :
    List (QueueKey × Tx) :=
  q.filter (fun p => decide (p.1 ≠ k))

/-- Number of queue entries at a key. -/
def countKey (k : QueueKey) (q : List (QueueKey × Tx)) : Nat :=
  (q.filter (fun p => decide (p.1 = k))).length

/-- Chain interactions performed by the watcher code, in order; every RPC of
the embedded functions is recorded and tagged.  `ethCallExecuteWithSignature`
records the `execute_proposal_with_signature(..).call()` of
`anchor_oracle_watcher.rs` line 311, which in ethers performs a read-only
`eth_call` and does not submit a transaction; `submitTx` would record a
state-changing `.send(..)`, which none of the embedded code performs. -/
inductive ChainAction
  | readChainId
  | readHandlerAddress
  | readProposalStatus
  | readBlockNumber
  | readNextIndex
  | readHandler
  | readBridgeAddress
  | ethCallExecuteWithSignature
  | submitTx (tx : Tx)
deriving DecidableEq

/-- Whether a chain action submits a transaction to a chain. -/
def ChainAction.isSubmit : ChainAction → Bool
  | .submitTx _ => true
  | _ => false

/-- Header built by `BridgeContractWatcher::create_proposal`: the resource id
of the destination anchor, the function signature, the destination chain id
as `u32`, and `ProposalNonce::from(data.leaf_index)` as nonce. -/
def createProposalHeader (data : ProposalData) (dest_chain_id : Nat) :
    ProposalHeader :=
  { resource_id := encode_resource_id data.anchor_address dest_chain_id
    function_sig := data.function_sig
    chain_id := dest_chain_id % 2 ^ 32
    nonce := data.leaf_index % 2 ^ 32 }

/-- The 80-byte canonical payload assembled by
`BridgeContractWatcher::create_proposal`: the encoded 40-byte header, the
origin chain id as 4 big-endian bytes, the leaf index as 4 big-endian bytes,
and the 32-byte merkle root.  There is no chain-type field on this path. -/
def createProposalPayload (data : ProposalData) (dest_chain_id : Nat) :
    Bytes :=
  encodeProposalHeader (createProposalHeader data dest_chain_id) ++
    be32 (data.src_chain_id % 2 ^ 32) ++ be32 (data.leaf_index % 2 ^ 32) ++
    data.merkle_root

/-- The bytes hashed for the data hash: the 20-byte anchor handler address
followed by the payload. -/
def dataHashBytes (data : ProposalData) (dest_chain_id : Nat) : Bytes :=
  data.anchor_handler_address ++ createProposalPayload data dest_chain_id

/-- The proposal entity stored by `create_proposal`: the source chain id,
`nonce = U64::from(data.leaf_index)`, the payload, its keccak hash and the
resource id. -/
def createProposalEntity (keccak : Bytes → Bytes) (data : ProposalData)
    (dest_chain_id : Nat) : ProposalEntity :=
  { src_chain_id := data.src_chain_id
    nonce := data.leaf_index
    data := createProposalPayload data dest_chain_id
    data_hash := keccak (dataHashBytes data dest_chain_id)
    resource_id := encode_resource_id data.anchor_address dest_chain_id }

/-- Possible control-flow outcomes of `create_proposal`, in source order:
the `assert_eq!` on the handler address panics on mismatch, a contract
status at least `Passed` skips, an existing vote queue entry skips, and
otherwise the vote is enqueued and the entity inserted.  `skippedByGate` is
the outcome of the surrounding signaler when the smart-update gate skips the
destination before `create_proposal` is reached. -/
inductive CreateOutcome
  | skippedByGate
  | panickedHandlerMismatch
  | skippedStatus
  | skippedAlreadyQueued
  | enqueued
deriving DecidableEq

/-- Result of `create_proposal`: outcome, resulting store, and the chain
actions performed. -/
structure CreateResult where
  outcome : CreateOutcome
  store : Store
  actions : List ChainAction
deriving DecidableEq

/-- Embedding of `BridgeContractWatcher::create_proposal`.  The chain
responses are parameters: `dest_chain_id` is `get_chainid()`,
`contract_handler` is `resource_id_to_handler_address(resource_id)`, and
`status_byte` is the status field of
`get_proposal(src_chain_id, leaf_index, data_hash)`.  The source asserts the
configured handler address against the contract one, skips when the status
is already at least `Passed`, skips when a vote for the data hash is
already queued, and otherwise enqueues `vote_proposal` under
`(dest_chain_id, vote key)` and inserts the entity. -/
def createProposal (keccak : Bytes → Bytes) (s : Store)
    (data : ProposalData) (dest_chain_id : Nat) (contract_handler : Bytes)
    (status_byte : Nat) : CreateResult :=
  let entity := createProposalEntity keccak data dest_chain_id
  if contract_handler ≠ data.anchor_handler_address then
    { outcome := .panickedHandlerMismatch
      store := s
      actions := [.readChainId, .readHandlerAddress] }
  else if ProposalStatus.Passed.u8 ≤ (proposalStatusOfU8 status_byte).u8 then
    { outcome := .skippedStatus
      store := s
      actions := [.readChainId, .readHandlerAddress, .readProposalStatus] }
  else
    let key : QueueKey := (dest_chain_id, voteKeyBytes entity.data_hash)
    if hasItem s.queue key then
      { outcome := .skippedAlreadyQueued
        store := s
        actions := [.readChainId, .readHandlerAddress, .readProposalStatus] }
    else
      let tx := Tx.voteProposal entity.src_chain_id entity.nonce
        entity.resource_id entity.data_hash
      { outcome := .enqueued
        store :=
          { proposals := insertProposalEntry s.proposals entity
            queue := enqueueItem s.queue key tx }
        actions := [.readChainId, .readHandlerAddress, .readProposalStatus] }

/-- Possible control-flow outcomes of `execute_proposal`, in source order:
a missing local entity skips with a warning, a contract status at least
`Executed` skips, `assert_eq!(status, Passed)` panics for any remaining
status other than `Passed`, an existing execute queue entry skips, and
otherwise the execution is enqueued. -/
inductive ExecuteOutcome
  | skippedNoEntity
  | skippedStatus
  | panickedNotPassed
  | skippedAlreadyQueued
  | enqueued
deriving DecidableEq

/-- Result of `execute_proposal`: outcome, resulting store, and the chain
actions performed. -/
structure ExecuteResult where
  outcome : ExecuteOutcome
  store : Store
  actions : List ChainAction
deriving DecidableEq

/-- Embedding of `BridgeContractWatcher::execute_proposal`.  The chain
responses are parameters: `chain_id` is `get_chainid()`, `status_byte` is
the status of `get_proposal(entity.src_chain_id, entity.nonce, data_hash)`
and `current_block` is `get_block_number()`.  The source first calls
`store.remove_proposal(data_hash)`, which removes the entity from the store
and returns it; on a missing entity it skips, on a status at least
`Executed` it skips, it asserts the status equals `Passed`, and it enqueues
`execute_proposal` gated at `current_block + 1` under
`(chain_id, execute key)` unless one is already queued. -/
def executeProposal (s : Store) (chain_id : Nat) (data_hash : Bytes)
    (status_byte : Nat) (current_block : Nat) : ExecuteResult :=
  let s1 : Store := { s with proposals := eraseProposal s.proposals data_hash }
  match lookupProposal s.proposals data_hash with
  | none =>
    { outcome := .skippedNoEntity, store := s1, actions := [.readChainId] }
  | some entity =>
    if ProposalStatus.Executed.u8 ≤ (proposalStatusOfU8 status_byte).u8 then
      { outcome := .skippedStatus
        store := s1
        actions := [.readChainId, .readProposalStatus] }
    else if proposalStatusOfU8 status_byte ≠ .Passed then
      { outcome := .panickedNotPassed
        store := s1
        actions := [.readChainId, .readProposalStatus] }
    else
      let key : QueueKey := (chain_id, executeKeyBytes data_hash)
      let tx := Tx.executeProposal entity.src_chain_id entity.nonce
        entity.data entity.resource_id (current_block + 1)
      if hasItem s1.queue key then
        { outcome := .skippedAlreadyQueued
          store := s1
          actions := [.readChainId, .readProposalStatus, .readBlockNumber] }
      else
        { outcome := .enqueued
          store := { s1 with queue := enqueueItem s1.queue key tx }
          actions := [.readChainId, .readProposalStatus, .readBlockNumber] }

/-- Embedding of `BridgeContractWatcher::remove_proposal`: remove the entity
at the data hash and remove the vote and execute queue entries at their
keys; absent keys are ignored. -/
def removeProposalHandler (s : Store) (chain_id : Nat) (data_hash : Bytes) :
    Store :=
  { proposals := eraseProposal s.proposals data_hash
    queue :=
      removeItem (removeItem s.queue (chain_id, voteKeyBytes data_hash))
        (chain_id, executeKeyBytes data_hash) }

/-- Outcome of `handle_event`: `ok` mirrors `Ok(())`, `panicked` mirrors a
panic escaping from `execute_proposal`. -/
inductive HandleOutcome
  | ok
  | panicked
deriving DecidableEq

/-- Result of `handle_event`. -/
structure HandleResult where
  outcome : HandleOutcome
  store : Store
deriving DecidableEq

/-- Embedding of `BridgeContractWatcher::handle_event` on a
`ProposalEventFilter` log: `Executed` and `Cancelled` run
`remove_proposal`, `Passed` runs `execute_proposal`, every other status is
a no-op.  `exec_status_byte` and `current_block` are the chain responses
consumed by the `Passed` branch. -/
def handleEvent (s : Store) (chain_id : Nat) (event_status_byte : Nat)
    (data_hash : Bytes) (exec_status_byte : Nat) (current_block : Nat) :
    HandleResult :=
  match proposalStatusOfU8 event_status_byte with
  | .Executed | .Cancelled =>
    { outcome := .ok, store := removeProposalHandler s chain_id data_hash }
  | .Passed =>
    let r := executeProposal s chain_id data_hash exec_status_byte
      current_block
    { outcome := if r.outcome = .panickedNotPassed then .panicked else .ok
      store := r.store }
  | _ => { outcome := .ok, store := s }

/-- Outcome of the smart-update gate of `anchor_oracle_watcher.rs`: either
the linked destination is skipped (`continue 'outer`) or the handler
proceeds to build and signal the proposal. -/
inductive GateResult
  | skip
  | proceed
deriving DecidableEq

/-- Embedding of the retry loop of the smart-update gate (lines 213 to 241
of `anchor_oracle_watcher.rs`).  Each iteration queries `next_index()` on
the destination anchor (reading `nextIndex i` at the i-th query); if the
source leaf index is below that reading minus one (saturating), the
destination is skipped, otherwise the loop sleeps and retries.  The second
component counts the `next_index` reads performed. -/
def smartGateAux (leaf : Nat) (nextIndex : Nat → Nat) :
    Nat → Nat → GateResult × Nat
  | _, 0 => (.proceed, 0)
  | i, r + 1 =>
    if leaf < nextIndex i - 1 then (.skip, 1)
    else
      let g := smartGateAux leaf nextIndex (i + 1) r
      (g.1, g.2 + 1)

/-- The smart-update gate together with the number of `next_index` reads
performed: the retry count is `experimental.smart_anchor_updates_retries`
when `experimental.smart_anchor_updates` is enabled and 0 otherwise, so the
skip check never runs when the gate is disabled or the retry count is 0. -/
def smartGateCount (enabled : Bool) (retries leaf : Nat)
    (nextIndex : Nat → Nat) : GateResult × Nat :=
  smartGateAux leaf nextIndex 0 (if enabled then retries else 0)

/-- The outcome of the smart-update gate. -/
def smartGate (enabled : Bool) (retries leaf : Nat) (nextIndex : Nat → Nat) :
    GateResult :=
  (smartGateCount enabled retries leaf nextIndex).1

/-- Header built by `AnchorWatcher::handle_event` for one linked anchor
(lines 265 to 270 of `anchor_oracle_watcher.rs`): the typed resource id of
the destination anchor with chain type `[1, 0]`, and nonce
`ProposalNonce::from(data.leaf_index) + 1`, which wraps modulo `2 ^ 32`. -/
def oracleProposalHeader (data : ProposalData) (dest_chain_id : Nat) :
    ProposalHeader :=
  { resource_id :=
      encodeTypedResourceId data.anchor_address [1, 0] dest_chain_id
    function_sig := data.function_sig
    chain_id := dest_chain_id % 2 ^ 32
    nonce := (data.leaf_index + 1) % 2 ^ 32 }

/-- The 82-byte payload assembled by `AnchorWatcher::handle_event`: the
encoded 40-byte header, the 2-byte origin chain type `[1, 0]`, the origin
chain id as 4 big-endian bytes, the leaf index as 4 big-endian bytes, and
the 32-byte merkle root. -/
def oracleProposalPayload (data : ProposalData) (dest_chain_id : Nat) :
    Bytes :=
  encodeProposalHeader (oracleProposalHeader data dest_chain_id) ++ [1, 0] ++
    be32 (data.src_chain_id % 2 ^ 32) ++ be32 (data.leaf_index % 2 ^ 32) ++
    data.merkle_root

/-- Embedding of the per-linked-anchor behaviour of
`AnchorWatcher::handle_event` (the oracle variant): apply the smart-update
gate and, when it proceeds, read the handler and bridge addresses, sign the
payload hash locally and issue `execute_proposal_with_signature(..).call()`,
a read-only `eth_call`.  The handler performs no store write and no
transaction submission for the anchor; the returned action list records its
chain interactions in order. -/
def oracleHandleAnchor (enabled : Bool) (retries : Nat)
    (data : ProposalData) (nextIndex : Nat → Nat) :
    GateResult × List ChainAction :=
  match smartGateCount enabled retries data.leaf_index nextIndex with
  | (.skip, reads) =>
    (.skip, .readChainId :: List.replicate reads .readNextIndex)
  | (.proceed, reads) =>
    (.proceed, .readChainId :: List.replicate reads .readNextIndex ++
      [.readHandler, .readBridgeAddress, .ethCallExecuteWithSignature])

/-- Modelled from the spec: the bridge-signaling anchor watcher (the
`ForBridge` variant of `AnchorWatcher`, not under `src/`), restricted to one
linked destination.  Per spec section 4.6 it applies the smart-update gate
and, when the gate proceeds, signals the bridge with a `CreateProposal`
command; `BridgeContractWatcher::handle_cmd` (under `src/`) dispatches that
command to `create_proposal`.  When the gate skips, nothing happens for the
destination. -/
def signalerForDest (keccak : Bytes → Bytes) (s : Store) (enabled : Bool)
    (retries : Nat) (nextIndex : Nat → Nat) (data : ProposalData)
    (dest_chain_id : Nat) (contract_handler : Bytes) (status_byte : Nat) :
    CreateResult :=
  match smartGate enabled retries data.leaf_index nextIndex with
  | .skip => { outcome := .skippedByGate, store := s, actions := [] }
  | .proceed =>
    createProposal keccak s data dest_chain_id contract_handler status_byte

/-- Placeholder hash used to instantiate the keccak parameter in concrete
witnesses; the theorems themselves hold for every hash function. -/
def kZero : Bytes → Bytes := fun _ => List.replicate 32 0

/-- The concrete deposit of the spec's proposal-bytes scenario:
`src_chain_id = 5`, `leaf_index = 7`, merkle root of 32 bytes `0x11`,
handler of 20 bytes `0xAA`, function signature `0xDEADBEEF`. -/
def specDeposit : ProposalData :=
  { anchor_address := List.replicate 20 0xAA
    anchor_handler_address := List.replicate 20 0xAA
    src_chain_id := 5
    leaf_index := 7
    function_sig := [0xDE, 0xAD, 0xBE, 0xEF]
    merkle_root := List.replicate 32 0x11 }

/-- The deposit of the spec's smart-update-skip scenario: as `specDeposit`
but with `leaf_index = 3`. -/
def skipDeposit : ProposalData :=
  { specDeposit with leaf_index := 3 }

/-- The 20-byte address `0xB42139fFcEF02dC85db12aC9416a19A12381167D` of the
spec's resource-id scenario. -/
def c2Addr : Bytes :=
  [0xb4, 0x21, 0x39, 0xff, 0xce, 0xf0, 0x2d, 0xc8, 0x5d, 0xb1, 0x2a, 0xc9,
   0x41, 0x6a, 0x19, 0xa1, 0x23, 0x81, 0x16, 0x7d]

/-- The expected resource id
`0000000000000000b42139ffcef02dc85db12ac9416a19a12381167d00000004`. -/
def c2ResourceId : Bytes :=
  [0, 0, 0, 0, 0, 0, 0, 0,
   0xb4, 0x21, 0x39, 0xff, 0xce, 0xf0, 0x2d, 0xc8, 0x5d, 0xb1, 0x2a, 0xc9,
   0x41, 0x6a, 0x19, 0xa1, 0x23, 0x81, 0x16, 0x7d,
   0, 0, 0, 4]

/-- An empty store. -/
def emptyStore : Store := { proposals := [], queue := [] }

/-- A concrete 32-byte data hash used in counterexamples. -/
def hashC : Bytes := List.replicate 32 1

/-- A concrete proposal entity stored under `hashC`. -/
def entityC : ProposalEntity :=
  { src_chain_id := 5
    nonce := 7
    data := [1, 2, 3]
    data_hash := hashC
    resource_id := List.replicate 32 2 }

/-- A store holding exactly the entity `entityC` and an empty queue. -/
def storeC : Store := { proposals := [(hashC, entityC)], queue := [] }

/-! Helper lemmas shared by the claim theorems. -/

theorem be32_length (n : Nat) : (be32 n).length = 4 := rfl

theorem fromBe32_be32 (n : Nat) (h : n < 2 ^ 32) : fromBe32 (be32 n) = n := by
  simp only [be32, fromBe32]
  omega

theorem drop_len_append (l₁ l₂ : Bytes) (n : Nat) (h : l₁.length = n) :
    (l₁ ++ l₂).drop n = l₂ := by
  subst h; simp

theorem take_len_append (l₁ l₂ : Bytes) (n : Nat) (h : l₁.length = n) :
    (l₁ ++ l₂).take n = l₁ := by
  subst h; simp

theorem filter_twice {α : Type} (f : α → Bool) (l : List α) :
    (l.filter f).filter f = l.filter f := by
  induction l with
  | nil => rfl
  | cons a t ih =>
    by_cases h : f a <;> simp [List.filter_cons, h, ih]

theorem lookup_erase (ps : List (Bytes × ProposalEntity)) (h : Bytes) :
    lookupProposal (eraseProposal ps h) h = none := by
  induction ps with
  | nil => rfl
  | cons p t ih =>
    by_cases hp : p.1 = h
    · simpa [eraseProposal, List.filter_cons, hp] using ih
    · simpa [eraseProposal, List.filter_cons, hp, lookupProposal] using ih

theorem erase_twice (ps : List (Bytes × ProposalEntity)) (h : Bytes) :
    eraseProposal (eraseProposal ps h) h = eraseProposal ps h :=
  filter_twice _ ps

theorem hasItem_filter_false (q : List (QueueKey × Tx)) (k : QueueKey)
    (f : QueueKey × Tx → Bool) (h : hasItem q k = false) :
    hasItem (q.filter f) k = false := by
  simp only [hasItem, List.any_eq_false] at h ⊢
  intro p hp
  exact h p (List.mem_of_mem_filter hp)

theorem hasItem_removeItem_self (q : List (QueueKey × Tx)) (k : QueueKey) :
    hasItem (removeItem q k) k = false := by
  simp only [hasItem, removeItem, List.any_eq_false]
  intro p hp
  have := (List.mem_filter.mp hp).2
  simpa using this

theorem removeItem_no_key (q : List (QueueKey × Tx)) (k : QueueKey)
    (h : hasItem q k = false) : removeItem q k = q := by
  rw [removeItem, List.filter_eq_self]
  intro p hp
  simp only [hasItem, List.any_eq_false] at h
  simpa using h p hp

theorem countKey_append_one (q : List (QueueKey × Tx)) (k k' : QueueKey)
    (tx : Tx) :
    countKey k' (q ++ [(k, tx)]) =
      countKey k' q + if k = k' then 1 else 0 := by
  by_cases h : k = k' <;>
    simp [countKey, List.filter_append, List.filter_cons, h]

theorem countKey_zero_of_no_item (q : List (QueueKey × Tx)) (k : QueueKey)
    (h : hasItem q k = false) : countKey k q = 0 := by
  have hnil : q.filter (fun p => decide (p.1 = k)) = [] := by
    rw [List.filter_eq_nil_iff]
    intro p hp
    simp only [hasItem, List.any_eq_false] at h
    simpa using h p hp
  simp [countKey, hnil]

theorem countKey_pos_of_item (q : List (QueueKey × Tx)) (k : QueueKey)
    (h : hasItem q k = true) : 1 ≤ countKey k q := by
  simp only [hasItem, List.any_eq_true] at h
  obtain ⟨p, hp, hpk⟩ := h
  have hmem : p ∈ q.filter (fun p => decide (p.1 = k)) :=
    List.mem_filter.mpr ⟨hp, hpk⟩
  have := List.length_pos.mpr (List.ne_nil_of_mem hmem)
  simpa [countKey] using this

theorem countKey_filter_le (q : List (QueueKey × Tx)) (k : QueueKey)
    (f : QueueKey × Tx → Bool) :
    countKey k (q.filter f) ≤ countKey k q := by
  have hsub : List.Sublist ((q.filter f).filter (fun p => decide (p.1 = k)))
      (q.filter (fun p => decide (p.1 = k))) :=
    List.Sublist.filter _ (List.filter_sublist q)
  simpa [countKey] using hsub.length_le

theorem hasItem_enqueue_self (q : List (QueueKey × Tx)) (k : QueueKey)
    (tx : Tx) : hasItem (enqueueItem q k tx) k = true := by
  cases hhi : hasItem q k
  · have hhi' : (q.any fun p => decide (p.1 = k)) = false := hhi
    simp [enqueueItem, hasItem, hhi', List.any_append]
  · simp [enqueueItem, hhi]

theorem decode_encode_resource_id (addr : Bytes) (chain_id : Nat)
    (h20 : addr.length = 20) (h32 : chain_id < 2 ^ 32) :
    decode_resource_id (encode_resource_id addr chain_id) =
      (addr, chain_id) := by
  have hmod : chain_id % 4294967296 = chain_id :=
    Nat.mod_eq_of_lt (by omega)
  have hassoc :
      encode_resource_id addr chain_id =
        List.replicate 8 0 ++ (addr ++ be32 chain_id) := by
    simp [encode_resource_id, hmod, List.append_assoc]
  have hassoc2 :
      encode_resource_id addr chain_id =
        (List.replicate 8 0 ++ addr) ++ be32 chain_id := by
    simp [encode_resource_id, hmod, List.append_assoc]
  have h1 :
      (encode_resource_id addr chain_id).drop 8 = addr ++ be32 chain_id := by
    rw [hassoc, drop_len_append]
    simp
  have h2 :
      (encode_resource_id addr chain_id).drop 28 = be32 chain_id := by
    rw [hassoc2, drop_len_append]
    simp [h20]
  have h3 : (be32 chain_id).take 4 = be32 chain_id := by
    simp [be32]
  simp only [decode_resource_id, h1, h2, h3, Prod.mk.injEq]
  exact ⟨take_len_append addr _ 20 h20, fromBe32_be32 chain_id h32⟩

/-- Claim C2: for every 20-byte EVM handler address and every chain id
representable in 32 bits, decoding the encoded resource id returns the
same pair; the encoding is 8 zero bytes, the 20-byte address, then the
chain id as 4 big-endian bytes, and the spec's concrete address with chain
id 4 encodes to `0000..00 b42139..167d 00000004` and decodes back. -/
theorem c2_resource_id_roundtrip (addr : Bytes) (chain_id : Nat)
    (h20 : addr.length = 20) (h32 : chain_id < 2 ^ 32) :
    decode_resource_id (encode_resource_id addr chain_id) =
        (addr, chain_id) ∧
      encode_resource_id addr chain_id =
        List.replicate 8 0 ++ addr ++ be32 chain_id ∧
      encode_resource_id c2Addr 4 = c2ResourceId ∧
      decode_resource_id c2ResourceId = (c2Addr, 4) := by
  refine ⟨decode_encode_resource_id addr chain_id h20 h32, ?_, ?_, ?_⟩
  · have hmod : chain_id % 4294967296 = chain_id :=
      Nat.mod_eq_of_lt (by omega)
    simp [encode_resource_id, hmod]
  · decide
  · decide

/-- Witness for C2 at the spec's concrete address and chain id 4. -/
theorem c2_resource_id_roundtrip_witness :
    decode_resource_id (encode_resource_id c2Addr 4) = (c2Addr, 4) :=
  (c2_resource_id_roundtrip c2Addr 4 (by decide) (by decide)).1

/-- Claim C1 as stated is false: at the spec's own concrete input the
80-byte payload built by `create_proposal` ends in
`00_00_00_05 00_00_00_07` followed by 32 bytes `0x11` — there is no 2-byte
chain type in the 80-byte EVM payload, so the last 40 bytes differ from the
claimed `00_05_00_00_00_00_07_00_00_00` prefix (which with the root would be
42 bytes anyway). -/
theorem c1_payload_counterexample :
    (createProposalPayload specDeposit 100).length = 80 ∧
    (createProposalPayload specDeposit 100).drop 40 =
      be32 5 ++ be32 7 ++ List.replicate 32 0x11 ∧
    (createProposalPayload specDeposit 100).drop 40 ≠
      [0x00, 0x05, 0x00, 0x00, 0x00, 0x00, 0x07, 0x00, 0x00, 0x00] ++
        List.replicate 32 0x11 := by
  refine ⟨by decide, by decide, by decide⟩

/-- Claim C1 (amended): the canonical payload of `create_proposal` is
exactly 80 bytes, a 40-byte header (`resource_id[32]` then
`function_sig[4]` then `nonce[4]` big-endian) followed by
`src_chain_id[4]` big-endian, `leaf_index[4]` big-endian and
`merkle_root[32]` — with no chain-type field — and the stored data hash is
`keccak256(handler_address ++ payload)`; at the spec's concrete input the
last 40 bytes are `00_00_00_05_00_00_00_07` then 32 bytes `0x11`.  The
oracle variant of the payload instead has 82 bytes, inserting the 2-byte
chain type `[1, 0]` after the header. -/
theorem c1_payload_layout (keccak : Bytes → Bytes) (data : ProposalData)
    (dest : Nat) (h20 : data.anchor_address.length = 20)
    (h4 : data.function_sig.length = 4)
    (h32 : data.merkle_root.length = 32) :
    (createProposalPayload data dest).length = 80 ∧
    createProposalPayload data dest =
      encodeProposalHeader (createProposalHeader data dest) ++
        (be32 (data.src_chain_id % 2 ^ 32) ++
          (be32 (data.leaf_index % 2 ^ 32) ++ data.merkle_root)) ∧
    (encodeProposalHeader (createProposalHeader data dest)).length = 40 ∧
    (createProposalEntity keccak data dest).data_hash =
      keccak (data.anchor_handler_address ++
        createProposalPayload data dest) ∧
    (createProposalPayload specDeposit 100).drop 40 =
      be32 5 ++ be32 7 ++ List.replicate 32 0x11 ∧
    (oracleProposalPayload data dest).length = 82 := by
  have hrid : (encode_resource_id data.anchor_address dest).length = 32 := by
    simp [encode_resource_id, be32, h20]
  have hhdr :
      (encodeProposalHeader (createProposalHeader data dest)).length = 40 := by
    simp [encodeProposalHeader, createProposalHeader, hrid, h4, be32]
  refine ⟨?_, ?_, hhdr, rfl, by decide, ?_⟩
  · simp [createProposalPayload, List.length_append, hhdr, h32, be32]
  · simp [createProposalPayload, List.append_assoc]
  · simp [oracleProposalPayload, encodeProposalHeader, oracleProposalHeader,
      encodeTypedResourceId, List.length_append, h20, h4, h32, be32]

/-- Claim C5 as stated is false: the code path that adds 1 to the leaf
index when building the proposal-header nonce is
`AnchorWatcher::handle_event` in `anchor_oracle_watcher.rs` — an EVM path
(it is built on ethers HTTP providers and EVM contracts), not a Substrate
path.  At the spec's concrete deposit (`leaf_index = 7`) that EVM path puts
8, not 7, into the header nonce. -/
theorem c5_oracle_nonce_counterexample :
    (oracleProposalHeader specDeposit 100).nonce = 8 ∧
    (encodeProposalHeader (oracleProposalHeader specDeposit 100)).drop 36 =
      [0, 0, 0, 8] ∧
    (oracleProposalHeader specDeposit 100).nonce ≠
      specDeposit.leaf_index := by
  refine ⟨by decide, by decide, by decide⟩

/-- Claim C5 (amended): the 4-byte nonce in the encoded proposal header
equals the source leaf index on the `create_proposal` bridge path, and
equals `leaf_index + 1` (wrapping modulo `2 ^ 32`) on the anchor-oracle
watcher path — which is also EVM code, not a Substrate path; the stored
`ProposalEntity.nonce` on the bridge path equals the value used in its
header. -/
theorem c5_nonce_paths (keccak : Bytes → Bytes) (data : ProposalData)
    (dest : Nat) (h20 : data.anchor_address.length = 20)
    (h4 : data.function_sig.length = 4)
    (h32 : data.leaf_index < 2 ^ 32) :
    (encodeProposalHeader (createProposalHeader data dest)).drop 36 =
      be32 data.leaf_index ∧
    (createProposalHeader data dest).nonce = data.leaf_index ∧
    (createProposalEntity keccak data dest).nonce = data.leaf_index ∧
    (encodeProposalHeader (oracleProposalHeader data dest)).drop 36 =
      be32 ((data.leaf_index + 1) % 2 ^ 32) ∧
    (oracleProposalHeader data dest).nonce =
      (data.leaf_index + 1) % 2 ^ 32 := by
  have hmod : data.leaf_index % 2 ^ 32 = data.leaf_index :=
    Nat.mod_eq_of_lt h32
  have hrid : (encode_resource_id data.anchor_address dest).length = 32 := by
    simp [encode_resource_id, be32, h20]
  have htyped :
      (encodeTypedResourceId data.anchor_address [1, 0] dest).length = 32 :=
    by simp [encodeTypedResourceId, be32, h20]
  refine ⟨?_, ?_, rfl, ?_, rfl⟩
  · have hsplit :
        encodeProposalHeader (createProposalHeader data dest) =
          (encode_resource_id data.anchor_address dest ++
            data.function_sig) ++ be32 (data.leaf_index % 2 ^ 32) := by
      simp [encodeProposalHeader, createProposalHeader, List.append_assoc]
    rw [hsplit, hmod, drop_len_append]
    simp [hrid, h4]
  · exact hmod
  · have hsplit :
        encodeProposalHeader (oracleProposalHeader data dest) =
          (encodeTypedResourceId data.anchor_address [1, 0] dest ++
            data.function_sig) ++ be32 ((data.leaf_index + 1) % 2 ^ 32) := by
      simp [encodeProposalHeader, oracleProposalHeader, List.append_assoc]
    rw [hsplit, drop_len_append]
    simp [htyped, h4]

/-- Witness for C5 (amended) at the spec's concrete deposit. -/
theorem c5_nonce_paths_witness :
    (encodeProposalHeader (createProposalHeader specDeposit 100)).drop 36 =
      be32 7 ∧
    (createProposalEntity kZero specDeposit 100).nonce = 7 ∧
    (oracleProposalHeader specDeposit 100).nonce = 8 :=
  ⟨(c5_nonce_paths kZero specDeposit 100 (by decide) (by decide)
      (by decide)).1,
   (c5_nonce_paths kZero specDeposit 100 (by decide) (by decide)
      (by decide)).2.2.1,
   (c5_nonce_paths kZero specDeposit 100 (by decide) (by decide)
      (by decide)).2.2.2.2⟩

/-- Claim C6: with the configured handler matching the contract one (the
assert that precedes the guard), `create_proposal` takes its status-skip
path exactly when the contract status is at least `Passed`, and
`execute_proposal` (with the entity present locally) takes its status-skip
path exactly when the contract status is at least `Executed`; on both skip
paths no queue entry is created. -/
theorem c6_status_guards (keccak : Bytes → Bytes) (s s2 : Store)
    (data : ProposalData) (dest cid : Nat) (ch : Bytes)
    (status_byte resp blk : Nat) (h : Bytes) (e : ProposalEntity)
    (hch : ch = data.anchor_handler_address)
    (he : lookupProposal s2.proposals h = some e) :
    ((createProposal keccak s data dest ch status_byte).outcome =
        .skippedStatus ↔
      ProposalStatus.Passed.u8 ≤ (proposalStatusOfU8 status_byte).u8) ∧
    ((createProposal keccak s data dest ch status_byte).outcome =
        .skippedStatus →
      (createProposal keccak s data dest ch status_byte).store = s) ∧
    ((executeProposal s2 cid h resp blk).outcome = .skippedStatus ↔
      ProposalStatus.Executed.u8 ≤ (proposalStatusOfU8 resp).u8) ∧
    ((executeProposal s2 cid h resp blk).outcome = .skippedStatus →
      (executeProposal s2 cid h resp blk).store.queue = s2.queue) := by
  subst hch
  constructor
  · constructor
    · intro ho
      by_cases hst :
          ProposalStatus.Passed.u8 ≤ (proposalStatusOfU8 status_byte).u8
      · exact hst
      · exfalso
        by_cases hq : hasItem s.queue
            (dest, voteKeyBytes
              (createProposalEntity keccak data dest).data_hash)
        · simp [createProposal, hst, hq] at ho
        · simp [createProposal, hst, hq] at ho
    · intro hst
      simp [createProposal, hst]
  constructor
  · intro ho
    by_cases hst :
        ProposalStatus.Passed.u8 ≤ (proposalStatusOfU8 status_byte).u8
    · simp [createProposal, hst]
    · exfalso
      by_cases hq : hasItem s.queue
          (dest, voteKeyBytes (createProposalEntity keccak data dest).data_hash)
      · simp [createProposal, hst, hq] at ho
      · simp [createProposal, hst, hq] at ho
  constructor
  · constructor
    · intro ho
      by_cases hst :
          ProposalStatus.Executed.u8 ≤ (proposalStatusOfU8 resp).u8
      · exact hst
      · exfalso
        by_cases hpa : proposalStatusOfU8 resp ≠ .Passed
        · simp [executeProposal, he, hst, hpa] at ho
        · by_cases hq : hasItem s2.queue (cid, executeKeyBytes h)
          · simp [executeProposal, he, hst, hpa, hq] at ho
          · simp [executeProposal, he, hst, hpa, hq] at ho
    · intro hst
      simp [executeProposal, he, hst]
  · intro ho
    by_cases hst : ProposalStatus.Executed.u8 ≤ (proposalStatusOfU8 resp).u8
    · simp [executeProposal, he, hst]
    · exfalso
      by_cases hpa : proposalStatusOfU8 resp ≠ .Passed
      · simp [executeProposal, he, hst, hpa] at ho
      · by_cases hq : hasItem s2.queue (cid, executeKeyBytes h)
        · simp [executeProposal, he, hst, hpa, hq] at ho
        · simp [executeProposal, he, hst, hpa, hq] at ho

/-- Witness for C6: a status `Passed` response makes `create_proposal`
skip the vote leaving the store unchanged, and a status `Executed`
response makes `execute_proposal` skip the execution leaving the queue
unchanged. -/
theorem c6_status_guards_witness :
    (createProposal kZero emptyStore specDeposit 100
        specDeposit.anchor_handler_address 2).outcome = .skippedStatus ∧
    (createProposal kZero emptyStore specDeposit 100
        specDeposit.anchor_handler_address 2).store = emptyStore ∧
    (executeProposal storeC 1 hashC 3 10).outcome = .skippedStatus ∧
    (executeProposal storeC 1 hashC 3 10).store.queue = storeC.queue :=
  ⟨(c6_status_guards kZero emptyStore storeC specDeposit 100 1
      specDeposit.anchor_handler_address 2 3 10 hashC entityC rfl
      (by decide)).1.mpr (by decide),
   (c6_status_guards kZero emptyStore storeC specDeposit 100 1
      specDeposit.anchor_handler_address 2 3 10 hashC entityC rfl
      (by decide)).2.1
     ((c6_status_guards kZero emptyStore storeC specDeposit 100 1
        specDeposit.anchor_handler_address 2 3 10 hashC entityC rfl
        (by decide)).1.mpr (by decide)),
   (c6_status_guards kZero emptyStore storeC specDeposit 100 1
      specDeposit.anchor_handler_address 2 3 10 hashC entityC rfl
      (by decide)).2.2.1.mpr (by decide),
   (c6_status_guards kZero emptyStore storeC specDeposit 100 1
      specDeposit.anchor_handler_address 2 3 10 hashC entityC rfl
      (by decide)).2.2.2
     ((c6_status_guards kZero emptyStore storeC specDeposit 100 1
        specDeposit.anchor_handler_address 2 3 10 hashC entityC rfl
        (by decide)).2.2.1.mpr (by decide))⟩

/-- Claim C10: when `execute_proposal` finds a local entity and the
contract reports a status strictly below `Executed` in the derived order
that is not `Passed` (so `Inactive` or `Active`), it panics through
`assert_eq!(status, ProposalStatus::Passed)` rather than returning an
error; and every raw status byte of 5 or more maps to `Unknown`, which
compares above `Executed`, so such responses are skipped, not asserted. -/
theorem c10_execute_assert (s : Store) (cid : Nat) (h : Bytes)
    (e : ProposalEntity) (resp1 resp2 blk : Nat)
    (he : lookupProposal s.proposals h = some e) :
    ((proposalStatusOfU8 resp1).u8 < ProposalStatus.Executed.u8 →
      proposalStatusOfU8 resp1 ≠ .Passed →
      (executeProposal s cid h resp1 blk).outcome = .panickedNotPassed) ∧
    (5 ≤ resp2 → proposalStatusOfU8 resp2 = .Unknown) ∧
    (5 ≤ resp2 →
      (executeProposal s cid h resp2 blk).outcome = .skippedStatus) := by
  have hunk : 5 ≤ resp2 → proposalStatusOfU8 resp2 = .Unknown := by
    intro h5
    obtain ⟨n, rfl⟩ : ∃ n, resp2 = n + 5 := ⟨resp2 - 5, by omega⟩
    rfl
  refine ⟨?_, hunk, ?_⟩
  · intro hlt hne
    have hst : ¬ ProposalStatus.Executed.u8 ≤ (proposalStatusOfU8 resp1).u8 :=
      by omega
    simp [executeProposal, he, hst, hne]
  · intro h5
    have hst : ProposalStatus.Executed.u8 ≤ (proposalStatusOfU8 resp2).u8 :=
      by rw [hunk h5]; decide
    simp [executeProposal, he, hst]

/-- Witness for C10: with the entity present, a status byte 1 (`Active`)
panics the assert and a status byte 7 maps to `Unknown` and is skipped. -/
theorem c10_execute_assert_witness :
    (executeProposal storeC 1 hashC 1 10).outcome = .panickedNotPassed ∧
    proposalStatusOfU8 7 = .Unknown ∧
    (executeProposal storeC 1 hashC 7 10).outcome = .skippedStatus :=
  ⟨(c10_execute_assert storeC 1 hashC entityC 1 7 10 (by decide)).1
      (by decide) (by decide),
   (c10_execute_assert storeC 1 hashC entityC 1 7 10 (by decide)).2.1
      (by decide),
   (c10_execute_assert storeC 1 hashC entityC 1 7 10 (by decide)).2.2
      (by decide)⟩

theorem executeProposal_proposals (s : Store) (cid : Nat) (h : Bytes)
    (resp blk : Nat) :
    (executeProposal s cid h resp blk).store.proposals =
      eraseProposal s.proposals h := by
  unfold executeProposal
  split
  · rfl
  · split
    · rfl
    · split
      · rfl
      · by_cases hq : hasItem s.queue (cid, executeKeyBytes h) = true
        · simp [hq]
        · simp [hq]

theorem removeProposalHandler_idem (s : Store) (cid : Nat) (h : Bytes) :
    removeProposalHandler (removeProposalHandler s cid h) cid h =
      removeProposalHandler s cid h := by
  unfold removeProposalHandler
  simp only [Store.mk.injEq]
  constructor
  · exact erase_twice s.proposals h
  · have hv : hasItem
        (removeItem (removeItem s.queue (cid, voteKeyBytes h))
          (cid, executeKeyBytes h)) (cid, voteKeyBytes h) = false :=
      hasItem_filter_false _ _ _
        (hasItem_removeItem_self s.queue (cid, voteKeyBytes h))
    rw [removeItem_no_key _ _ hv]
    exact removeItem_no_key _ _ (hasItem_removeItem_self _ _)

/-- Claim C7: handling a `ProposalEvent` with status `Executed` (byte 3) or
`Cancelled` (byte 4) runs `remove_proposal`, which removes the local
entity and both the vote and execute queue entries for the data hash and
returns `Ok`; handling the same `Executed` event a second time leaves the
store unchanged and still returns `Ok`. -/
theorem c7_terminal_removal_idempotent (s : Store) (cid : Nat) (h : Bytes)
    (resp blk : Nat) :
    (handleEvent s cid 3 h resp blk).store = removeProposalHandler s cid h ∧
    (handleEvent s cid 4 h resp blk).store = removeProposalHandler s cid h ∧
    (handleEvent s cid 3 h resp blk).outcome = .ok ∧
    lookupProposal (handleEvent s cid 3 h resp blk).store.proposals h =
      none ∧
    hasItem (handleEvent s cid 3 h resp blk).store.queue
      (cid, voteKeyBytes h) = false ∧
    hasItem (handleEvent s cid 3 h resp blk).store.queue
      (cid, executeKeyBytes h) = false ∧
    handleEvent (handleEvent s cid 3 h resp blk).store cid 3 h resp blk =
      { outcome := .ok, store := (handleEvent s cid 3 h resp blk).store } := by
  have h3 : handleEvent s cid 3 h resp blk =
      { outcome := .ok, store := removeProposalHandler s cid h } := rfl
  have h4 : handleEvent s cid 4 h resp blk =
      { outcome := .ok, store := removeProposalHandler s cid h } := rfl
  refine ⟨by rw [h3], by rw [h4], by rw [h3], ?_, ?_, ?_, ?_⟩
  · rw [h3]
    exact lookup_erase s.proposals h
  · rw [h3]
    exact hasItem_filter_false _ _ _
      (hasItem_removeItem_self s.queue (cid, voteKeyBytes h))
  · rw [h3]
    exact hasItem_removeItem_self _ _
  · rw [h3]
    have hsecond : handleEvent (removeProposalHandler s cid h) cid 3 h resp
        blk = { outcome := .ok,
                store := removeProposalHandler
                  (removeProposalHandler s cid h) cid h } := rfl
    rw [hsecond, removeProposalHandler_idem]

/-- Claim C9 as stated is false: handling a `Passed` event does delete the
local entity.  On a store holding the entity for `hashC` with the contract
also reporting `Passed`, `handle_event` routes to `execute_proposal`, whose
first step `store.remove_proposal(data_hash)` takes the entity out of the
store; afterwards the lookup is `none` although the observed status was
`Passed`, not `Executed` or `Cancelled`. -/
theorem c9_passed_removal_counterexample :
    lookupProposal storeC.proposals hashC = some entityC ∧
    proposalStatusOfU8 2 = .Passed ∧
    (handleEvent storeC 1 2 hashC 2 10).outcome = .ok ∧
    lookupProposal
      (handleEvent storeC 1 2 hashC 2 10).store.proposals hashC = none := by
  refine ⟨by decide, rfl, by decide, by decide⟩

/-- Claim C9 (amended): handling `Inactive` or `Active` events leaves the
store unchanged and removes nothing; handling `Executed` or `Cancelled`
removes the entity; and handling `Passed` also removes the entity, because
`execute_proposal` starts by calling `store.remove_proposal(data_hash)`
and never re-inserts it. -/
theorem c9_entity_removal (s : Store) (cid : Nat) (h : Bytes)
    (resp blk : Nat) :
    (handleEvent s cid 0 h resp blk).store = s ∧
    (handleEvent s cid 1 h resp blk).store = s ∧
    lookupProposal (handleEvent s cid 2 h resp blk).store.proposals h =
      none ∧
    lookupProposal (handleEvent s cid 3 h resp blk).store.proposals h =
      none ∧
    lookupProposal (handleEvent s cid 4 h resp blk).store.proposals h =
      none := by
  refine ⟨rfl, rfl, ?_, ?_, ?_⟩
  · have h2 : (handleEvent s cid 2 h resp blk).store =
        (executeProposal s cid h resp blk).store := rfl
    rw [h2, executeProposal_proposals]
    exact lookup_erase s.proposals h
  · have h3 : (handleEvent s cid 3 h resp blk).store =
        removeProposalHandler s cid h := rfl
    rw [h3]
    exact lookup_erase s.proposals h
  · have h4 : (handleEvent s cid 4 h resp blk).store =
        removeProposalHandler s cid h := rfl
    rw [h4]
    exact lookup_erase s.proposals h

theorem createProposal_actions_cases (keccak : Bytes → Bytes) (s : Store)
    (data : ProposalData) (dest : Nat) (ch : Bytes) (sb : Nat) :
    (createProposal keccak s data dest ch sb).actions =
        [.readChainId, .readHandlerAddress] ∨
    (createProposal keccak s data dest ch sb).actions =
        [.readChainId, .readHandlerAddress, .readProposalStatus] := by
  by_cases h1 : ch ≠ data.anchor_handler_address
  · left
    simp [createProposal, h1]
  · right
    by_cases h2 : ProposalStatus.Passed.u8 ≤ (proposalStatusOfU8 sb).u8
    · simp [createProposal, h1, h2]
    · cases h3 : hasItem s.queue
          (dest, voteKeyBytes (createProposalEntity keccak data dest).data_hash)
      · simp [createProposal, h1, h2, h3]
      · simp [createProposal, h1, h2, h3]

theorem createProposal_noop_when_queued (keccak : Bytes → Bytes) (t : Store)
    (data : ProposalData) (dest : Nat) (ch : Bytes) (sb : Nat)
    (h1 : ¬ ch ≠ data.anchor_handler_address)
    (h2 : ¬ ProposalStatus.Passed.u8 ≤ (proposalStatusOfU8 sb).u8)
    (h3 : hasItem t.queue
      (dest, voteKeyBytes (createProposalEntity keccak data dest).data_hash) =
      true) :
    (createProposal keccak t data dest ch sb).store = t := by
  simp [createProposal, h1, h2, h3]

theorem executeProposal_none (s : Store) (cid : Nat) (h : Bytes)
    (resp blk : Nat) (hl : lookupProposal s.proposals h = none) :
    (executeProposal s cid h resp blk).store =
        { s with proposals := eraseProposal s.proposals h } ∧
      (executeProposal s cid h resp blk).outcome = .skippedNoEntity := by
  constructor <;> simp [executeProposal, hl]

theorem countKey_enqueue_le (q : List (QueueKey × Tx)) (k : QueueKey)
    (tx : Tx) (hq : ∀ k', countKey k' q ≤ 1) (k' : QueueKey) :
    countKey k' (enqueueItem q k tx) ≤ 1 := by
  cases hh : hasItem q k
  · simp only [enqueueItem, hh, Bool.false_eq_true, if_false]
    rw [countKey_append_one]
    by_cases hk : k = k'
    · subst hk
      rw [countKey_zero_of_no_item q k hh]
      simp
    · simp only [hk, if_false, Nat.add_zero]
      exact hq k'
  · simp only [enqueueItem, hh, if_true]
    exact hq k'

/-- Claim C3: the cross-chain signaler performs no transaction submission —
every chain action of the modelled `ForBridge` signaler (which dispatches
to the in-src `create_proposal`) and of the in-src oracle anchor handler is
a read or a read-only `eth_call` — and for a deposit that survives the
smart-update gate, with the handler assert passing and the contract status
below `Passed`, exactly one `VoteProposal` queue entry exists afterwards
under the vote key of the proposal's data hash. -/
theorem c3_signaler_only_enqueues (keccak : Bytes → Bytes) (s : Store)
    (enabled : Bool) (retries : Nat) (nextIndex : Nat → Nat)
    (data : ProposalData) (dest : Nat) (ch : Bytes) (sb : Nat)
    (hq : countKey
      (dest, voteKeyBytes (createProposalEntity keccak data dest).data_hash)
      s.queue ≤ 1) :
    (∀ a ∈ (signalerForDest keccak s enabled retries nextIndex data dest ch
        sb).actions, a.isSubmit = false) ∧
    (∀ a ∈ (oracleHandleAnchor enabled retries data nextIndex).2,
      a.isSubmit = false) ∧
    (smartGate enabled retries data.leaf_index nextIndex = .proceed →
      ch = data.anchor_handler_address →
      (proposalStatusOfU8 sb).u8 < ProposalStatus.Passed.u8 →
      countKey
        (dest, voteKeyBytes (createProposalEntity keccak data dest).data_hash)
        (signalerForDest keccak s enabled retries nextIndex data dest ch
          sb).store.queue = 1) := by
  refine ⟨?_, ?_, ?_⟩
  · intro a ha
    unfold signalerForDest at ha
    cases hg : smartGate enabled retries data.leaf_index nextIndex
    · rw [hg] at ha
      simp at ha
    · rw [hg] at ha
      rcases createProposal_actions_cases keccak s data dest ch sb with
        hc | hc <;> rw [hc] at ha <;> revert ha <;> revert a <;> decide
  · intro a ha
    unfold oracleHandleAnchor at ha
    rcases hg : smartGateCount enabled retries data.leaf_index nextIndex
      with ⟨g, reads⟩
    rw [hg] at ha
    cases g
    · simp only [List.mem_cons] at ha
      rcases ha with rfl | ha2
      · rfl
      · rw [List.eq_of_mem_replicate ha2]
        rfl
    · simp only [List.mem_cons, List.mem_append, List.not_mem_nil,
        or_false] at ha
      rcases ha with (rfl | ha2) | rfl | rfl | rfl
      · rfl
      · rw [List.eq_of_mem_replicate ha2]
        rfl
      · rfl
      · rfl
      · rfl
  · intro hp hch hst
    subst hch
    unfold signalerForDest
    rw [hp]
    have hst' :
        ¬ ProposalStatus.Passed.u8 ≤ (proposalStatusOfU8 sb).u8 :=
      Nat.not_le.mpr hst
    cases h3 : hasItem s.queue
        (dest, voteKeyBytes
          (createProposalEntity keccak data dest).data_hash)
    · have hzero := countKey_zero_of_no_item s.queue
        (dest, voteKeyBytes
          (createProposalEntity keccak data dest).data_hash) h3
      simp only [createProposal, hst']
      simp only [h3]
      simp only [enqueueItem, h3]
      simp only [Bool.false_eq_true, if_false, ne_eq, not_true_eq_false,
        countKey_append_one]
      simp [hzero]
    · have hpos := countKey_pos_of_item s.queue
        (dest, voteKeyBytes
          (createProposalEntity keccak data dest).data_hash) h3
      simp only [createProposal, hst']
      simp only [h3]
      simp only [Bool.false_eq_true, if_false, ne_eq, not_true_eq_false,
        if_true]
      omega

/-- Witness for C3: the spec's smart-update-proceed scenario (source leaf
index 5 against a destination stuck at `next_index = 5`): the gate retries
and then proceeds, and the signaler leaves exactly one vote entry in the
queue of an initially empty store. -/
theorem c3_signaler_only_enqueues_witness :
    countKey
      (100, voteKeyBytes
        (createProposalEntity kZero specDeposit 100).data_hash)
      (signalerForDest kZero emptyStore true 2 (fun _ => 5) specDeposit 100
        specDeposit.anchor_handler_address 0).store.queue = 1 :=
  (c3_signaler_only_enqueues kZero emptyStore true 2 (fun _ => 5)
      specDeposit 100 specDeposit.anchor_handler_address 0
      (by decide)).2.2 (by decide) rfl (by decide)

/-- Claim C4 as stated is false: with the smart-update gate enabled but the
retry count configured to 0, the skip check never runs, so a deposit with
`leaf_index = 3` against a destination with `next_index = 5` (which
satisfies `3 < 5 - 1`) is not skipped — the signaler proceeds and creates
a queue entry. -/
theorem c4_gate_counterexample :
    smartGate true 0 3 (fun _ => 5) = .proceed ∧
    (signalerForDest kZero emptyStore true 0 (fun _ => 5) skipDeposit 100
      skipDeposit.anchor_handler_address 0).outcome = .enqueued ∧
    (signalerForDest kZero emptyStore true 0 (fun _ => 5) skipDeposit 100
      skipDeposit.anchor_handler_address 0).store.queue ≠ [] := by
  refine ⟨rfl, by decide, by decide⟩

/-- Claim C4 (amended): when the smart-update gate is enabled with a
positive retry count and the destination's queried `next_index` satisfies
`leaf_index < next_index - 1` (saturating), the destination is skipped
entirely: the gate returns skip, the signaler leaves the store unchanged
and produces no queue entry and no proposal, and the oracle handler skips
the anchor likewise. -/
theorem c4_smart_update_skip (keccak : Bytes → Bytes) (s : Store)
    (retries : Nat) (nextIndex : Nat → Nat) (data : ProposalData)
    (dest : Nat) (ch : Bytes) (sb : Nat) (hr : 1 ≤ retries)
    (hlt : data.leaf_index < nextIndex 0 - 1) :
    smartGate true retries data.leaf_index nextIndex = .skip ∧
    signalerForDest keccak s true retries nextIndex data dest ch sb =
      { outcome := .skippedByGate, store := s, actions := [] } ∧
    (oracleHandleAnchor true retries data nextIndex).1 = .skip := by
  obtain ⟨r, rfl⟩ : ∃ r, retries = r + 1 := ⟨retries - 1, by omega⟩
  have hcount : smartGateCount true (r + 1) data.leaf_index nextIndex =
      (.skip, 1) := by
    simp [smartGateCount, smartGateAux, hlt]
  have hg : smartGate true (r + 1) data.leaf_index nextIndex = .skip := by
    rw [smartGate, hcount]
  refine ⟨hg, ?_, ?_⟩
  · unfold signalerForDest
    rw [hg]
  · unfold oracleHandleAnchor
    rw [hcount]

/-- Witness for C4 (amended): the spec's skip scenario, leaf index 3
against `next_index = 5` with one retry. -/
theorem c4_smart_update_skip_witness :
    smartGate true 1 skipDeposit.leaf_index (fun _ => 5) = .skip ∧
    signalerForDest kZero emptyStore true 1 (fun _ => 5) skipDeposit 100
      skipDeposit.anchor_handler_address 0 =
      { outcome := .skippedByGate, store := emptyStore, actions := [] } :=
  ⟨(c4_smart_update_skip kZero emptyStore 1 (fun _ => 5) skipDeposit 100
      skipDeposit.anchor_handler_address 0 (by decide) (by decide)).1,
   (c4_smart_update_skip kZero emptyStore 1 (fun _ => 5) skipDeposit 100
      skipDeposit.anchor_handler_address 0 (by decide) (by decide)).2.1⟩

/-- Claim C8: the outbound queue holds at most one transaction per key —
`create_proposal` and `execute_proposal` preserve the at-most-one
invariant (their enqueues are guarded by `has_item`, and the modelled
store enqueue is itself a no-op on an existing key) — and repeating either
call on its own output never adds a second queue entry for the same data
hash. -/
theorem c8_queue_unique (keccak : Bytes → Bytes) (s : Store)
    (data : ProposalData) (dest cid : Nat) (ch : Bytes)
    (sb resp blk : Nat) (h : Bytes)
    (hq : ∀ k, countKey k s.queue ≤ 1) :
    (∀ k, countKey k
        (createProposal keccak s data dest ch sb).store.queue ≤ 1) ∧
    (∀ k, countKey k
        (executeProposal s cid h resp blk).store.queue ≤ 1) ∧
    (createProposal keccak (createProposal keccak s data dest ch sb).store
        data dest ch sb).store.queue =
      (createProposal keccak s data dest ch sb).store.queue ∧
    (executeProposal (executeProposal s cid h resp blk).store cid h resp
        blk).store.queue =
      (executeProposal s cid h resp blk).store.queue := by
  refine ⟨?_, ?_, ?_, ?_⟩
  · intro k
    by_cases h1 : ch ≠ data.anchor_handler_address
    · simp only [createProposal]
      rw [if_pos h1]
      exact hq k
    · by_cases h2 : ProposalStatus.Passed.u8 ≤ (proposalStatusOfU8 sb).u8
      · simp only [createProposal]
        rw [if_neg h1, if_pos h2]
        exact hq k
      · cases h3 : hasItem s.queue
            (dest, voteKeyBytes
              (createProposalEntity keccak data dest).data_hash)
        · have h3' : ¬ hasItem s.queue
              (dest, voteKeyBytes
                (createProposalEntity keccak data dest).data_hash) = true :=
            by simp [h3]
          simp only [createProposal]
          rw [if_neg h1, if_neg h2, if_neg h3']
          exact countKey_enqueue_le s.queue _ _ hq k
        · simp only [createProposal]
          rw [if_neg h1, if_neg h2, if_pos h3]
          exact hq k
  · intro k
    rcases hl : lookupProposal s.proposals h with _ | e
    · simp only [executeProposal, hl]
      exact hq k
    · by_cases h4 : ProposalStatus.Executed.u8 ≤ (proposalStatusOfU8 resp).u8
      · simp only [executeProposal, hl]
        rw [if_pos h4]
        exact hq k
      · by_cases h5 : proposalStatusOfU8 resp ≠ .Passed
        · simp only [executeProposal, hl]
          rw [if_neg h4, if_pos h5]
          exact hq k
        · cases h6 : hasItem s.queue (cid, executeKeyBytes h)
          · have h6' : ¬ hasItem s.queue (cid, executeKeyBytes h) = true :=
              by simp [h6]
            simp only [executeProposal, hl]
            rw [if_neg h4, if_neg h5, if_neg h6']
            exact countKey_enqueue_le s.queue _ _ hq k
          · simp only [executeProposal, hl]
            rw [if_neg h4, if_neg h5, if_pos h6]
            exact hq k
  · by_cases h1 : ch ≠ data.anchor_handler_address
    · have hfix : (createProposal keccak s data dest ch sb).store = s := by
        simp [createProposal, h1]
      simp only [hfix]
    · by_cases h2 : ProposalStatus.Passed.u8 ≤ (proposalStatusOfU8 sb).u8
      · have hfix : (createProposal keccak s data dest ch sb).store = s := by
          simp [createProposal, h1, h2]
        simp only [hfix]
      · cases h3 : hasItem s.queue
            (dest, voteKeyBytes
              (createProposalEntity keccak data dest).data_hash)
        · have h3' : hasItem
              (createProposal keccak s data dest ch sb).store.queue
              (dest, voteKeyBytes
                (createProposalEntity keccak data dest).data_hash) = true :=
            by simp [createProposal, h1, h2, h3, hasItem_enqueue_self]
          rw [createProposal_noop_when_queued keccak
            (createProposal keccak s data dest ch sb).store data dest ch sb
            h1 h2 h3']
        · have hfix : (createProposal keccak s data dest ch sb).store = s :=
            by simp [createProposal, h1, h2, h3]
          simp only [hfix]
  · have hl2 : lookupProposal
        (executeProposal s cid h resp blk).store.proposals h = none := by
      rw [executeProposal_proposals]
      exact lookup_erase s.proposals h
    rw [(executeProposal_none (executeProposal s cid h resp blk).store cid h
      resp blk hl2).1]

/-- Witness for C8: starting from an empty store, after `create_proposal`
enqueues the vote there is exactly one entry at its key (so at most one),
and calling `create_proposal` again on the resulting store leaves the
queue unchanged. -/
theorem c8_queue_unique_witness :
    countKey
      (100, voteKeyBytes
        (createProposalEntity kZero specDeposit 100).data_hash)
      (createProposal kZero emptyStore specDeposit 100
        specDeposit.anchor_handler_address 0).store.queue ≤ 1 ∧
    (createProposal kZero
        (createProposal kZero emptyStore specDeposit 100
          specDeposit.anchor_handler_address 0).store specDeposit 100
        specDeposit.anchor_handler_address 0).store.queue =
      (createProposal kZero emptyStore specDeposit 100
        specDeposit.anchor_handler_address 0).store.queue :=
  ⟨(c8_queue_unique kZero emptyStore specDeposit 100 1
      specDeposit.anchor_handler_address 0 0 10 hashC
      (fun k => by simp [countKey, emptyStore])).1
      (100, voteKeyBytes (createProposalEntity kZero specDeposit 100).data_hash),
   (c8_queue_unique kZero emptyStore specDeposit 100 1
      specDeposit.anchor_handler_address 0 0 10 hashC
      (fun k => by simp [countKey, emptyStore])).2.2.1⟩

/-- Witness for C1 (amended) at the spec's concrete deposit against
destination chain 100. -/
theorem c1_payload_layout_witness :
    (createProposalPayload specDeposit 100).length = 80 ∧
    (createProposalPayload specDeposit 100).drop 40 =
      be32 5 ++ be32 7 ++ List.replicate 32 0x11 ∧
    (createProposalEntity kZero specDeposit 100).data_hash =
      kZero (specDeposit.anchor_handler_address ++
        createProposalPayload specDeposit 100) :=
  ⟨(c1_payload_layout kZero specDeposit 100 (by decide) (by decide)
      (by decide)).1,
   (c1_payload_layout kZero specDeposit 100 (by decide) (by decide)
      (by decide)).2.2.2.2.1,
   (c1_payload_layout kZero specDeposit 100 (by decide) (by decide)
      (by decide)).2.2.2.1⟩

end Relayer
